import Mathlib

set_option autoImplicit false
set_option maxRecDepth 40000

/-!
Shallow embedding of the multi-turn context-extraction protocol of
`src/backend/app.py` (the `extract_context` route, lines 38-204), together
with proofs of the specification's claims about it.

Conventions:
* Decoded JSON data (the request body fields and the value produced by
  `json.loads` on the oracle response) is modelled by `JVal`.
* A Python dict is modelled as an association list with first-occurrence
  lookup (`dget`) and in-place update (`dset`); the lists built by the
  parser and by the pipeline have unique keys, mirroring dict semantics.
* Machine text is modelled as `List Char`; `json.loads` is modelled by a
  fuel-based recursive-descent parser `jsonParse` (integer numerals only —
  no claim involves floating-point numerals).
* The route is modelled as a function of the parsed request and of the raw
  oracle response text; the Flask/HTTP wiring, logging and the prompt
  construction (which only feeds the external oracle) are outside the
  model, as is the `text`-missing 400 path (every modelled request carries
  a `text` field).
-/

/-- A decoded JSON value, as produced by `json.loads`. -/
inductive JVal where
  | null
  | bool (b : Bool)
  | num (n : Int)
  | str (s : String)
  | arr (xs : List JVal)
  | obj (fs : List (String × JVal))

/-- A Python dict with string keys, e.g. the decoded oracle object or the
`previous_context` object. -/
abbrev Ctx := List (String × JVal)

/-- Python `d.get(k)`: `none` when the key is absent. -/
def dget (d : Ctx) (k : String) : Option JVal :=
  match d with
  | [] => none
  | (k', v) :: rest => if k' = k then some v else dget rest k

/-- Python `d[k] = v`: overwrite in place, append when the key is absent. -/
def dset (d : Ctx) (k : String) (v : JVal) : Ctx :=
  match d with
  | [] => [(k, v)]
  | (k', v') :: rest => if k' = k then (k', v) :: rest else (k', v') :: dset rest k v

/-- Python truthiness of a decoded JSON value. -/
def truthy : JVal → Bool
  | JVal.null => false
  | JVal.bool b => b
  | JVal.num n => n != 0
  | JVal.str s => s != ""
  | JVal.arr xs => !xs.isEmpty
  | JVal.obj fs => !fs.isEmpty

/-- Truthiness of a `d.get(k)` result (`None`, i.e. an absent key, is falsy). -/
def otruthy : Option JVal → Bool
  | none => false
  | some v => truthy v

/-- Python `d.get(k) is None`: the key is absent or holds JSON `null`. -/
def isNoneLike : Option JVal → Bool
  | none => true
  | some JVal.null => true
  | some _ => false

/-- Whether a `d.get(k)` result equals the literal string "null". -/
def isNullStr : Option JVal → Bool
  | some (JVal.str s) => s = "null"
  | _ => false

/-! ### The `json.loads` model -/

def lbrace : Char := Char.ofNat 123
def rbrace : Char := Char.ofNat 125
def dquote : Char := Char.ofNat 34
def bslash : Char := Char.ofNat 92

/-- Drop the JSON whitespace characters accepted by `json.loads`. -/
def skipWs : List Char → List Char
  | c :: cs => if c = ' ' ∨ c = '\t' ∨ c = '\n' ∨ c = '\r' then skipWs cs else c :: cs
  | [] => []

/-- Parse the body of a JSON string literal (after the opening quote),
returning the decoded string and the input past the closing quote. -/
def parseStringBody (fuel : Nat) (cs : List Char) (acc : List Char) :
    Option (String × List Char) :=
  match fuel, cs with
  | 0, _ => none
  | _, [] => none
  | fuel + 1, c :: rest =>
    if c = dquote then some (⟨acc.reverse⟩, rest)
    else if c = bslash then
      match rest with
      | [] => none
      | e :: rest' =>
        if e = dquote then parseStringBody fuel rest' (dquote :: acc)
        else if e = bslash then parseStringBody fuel rest' (bslash :: acc)
        else if e = '/' then parseStringBody fuel rest' ('/' :: acc)
        else if e = 'n' then parseStringBody fuel rest' ('\n' :: acc)
        else if e = 't' then parseStringBody fuel rest' ('\t' :: acc)
        else if e = 'r' then parseStringBody fuel rest' ('\r' :: acc)
        else if e = 'b' then parseStringBody fuel rest' (Char.ofNat 8 :: acc)
        else if e = 'f' then parseStringBody fuel rest' (Char.ofNat 12 :: acc)
        else none
    else parseStringBody fuel rest (c :: acc)

/-- Parse a nonempty run of decimal digits. -/
def parseNat (cs : List Char) : Option (Nat × List Char) :=
  let ds := cs.takeWhile (fun c => c.isDigit)
  if ds.isEmpty then none
  else some (ds.foldl (fun n c => n * 10 + (c.toNat - 48)) 0, cs.drop ds.length)

mutual

/-- Recursive-descent parser for one JSON value, fuel-bounded. -/
def parseVal (fuel : Nat) (cs : List Char) : Option (JVal × List Char) :=
  match fuel with
  | 0 => none
  | fuel + 1 =>
    match skipWs cs with
    | [] => none
    | c :: rest =>
      if c = dquote then
        match parseStringBody (rest.length + 1) rest [] with
        | some (s, rem) => some (JVal.str s, rem)
        | none => none
      else if c = lbrace then
        match skipWs rest with
        | c2 :: rest2 =>
          if c2 = rbrace then some (JVal.obj [], rest2)
          else parseMembers fuel (c2 :: rest2) []
        | [] => none
      else if c = '[' then
        match skipWs rest with
        | c2 :: rest2 =>
          if c2 = ']' then some (JVal.arr [], rest2)
          else parseElems fuel (c2 :: rest2) []
        | [] => none
      else if c = 't' then
        match rest with
        | 'r' :: 'u' :: 'e' :: rem => some (JVal.bool true, rem)
        | _ => none
      else if c = 'f' then
        match rest with
        | 'a' :: 'l' :: 's' :: 'e' :: rem => some (JVal.bool false, rem)
        | _ => none
      else if c = 'n' then
        match rest with
        | 'u' :: 'l' :: 'l' :: rem => some (JVal.null, rem)
        | _ => none
      else if c = '-' then
        match parseNat rest with
        | some (n, rem) => some (JVal.num (-(n : Int)), rem)
        | none => none
      else
        match parseNat (c :: rest) with
        | some (n, rem) => some (JVal.num (n : Int), rem)
        | none => none

/-- Parse the members of a JSON object after its first key position;
duplicate keys overwrite (Python dict semantics). -/
def parseMembers (fuel : Nat) (cs : List Char) (acc : Ctx) : Option (JVal × List Char) :=
  match fuel with
  | 0 => none
  | fuel + 1 =>
    match skipWs cs with
    | c :: rest =>
      if c = dquote then
        match parseStringBody (rest.length + 1) rest [] with
        | some (k, rem) =>
          match skipWs rem with
          | c2 :: rem2 =>
            if c2 = ':' then
              match parseVal fuel rem2 with
              | some (v, rem3) =>
                match skipWs rem3 with
                | c3 :: rem4 =>
                  if c3 = ',' then parseMembers fuel rem4 (dset acc k v)
                  else if c3 = rbrace then some (JVal.obj (dset acc k v), rem4)
                  else none
                | [] => none
              | none => none
            else none
          | [] => none
        | none => none
      else none
    | [] => none

/-- Parse the elements of a JSON array after its first element position. -/
def parseElems (fuel : Nat) (cs : List Char) (acc : List JVal) : Option (JVal × List Char) :=
  match fuel with
  | 0 => none
  | fuel + 1 =>
    match parseVal fuel cs with
    | some (v, rem) =>
      match skipWs rem with
      | c :: rem2 =>
        if c = ',' then parseElems fuel rem2 (acc ++ [v])
        else if c = ']' then some (JVal.arr (acc ++ [v]), rem2)
        else none
      | [] => none
    | none => none

end

/-- `json.loads`: decode the whole text as one JSON value, tolerating
surrounding whitespace only (`none` models a raised `JSONDecodeError`). -/
def jsonParse (cs : List Char) : Option JVal :=
  match parseVal (2 * cs.length + 2) cs with
  | some (v, rem) => if (skipWs rem).isEmpty then some v else none
  | none => none

/-! ### The span fallback (app.py lines 131-139) -/

/-- Index of the first character satisfying `p`. -/
def firstIdx (p : Char → Bool) : List Char → Option Nat
  | [] => none
  | c :: rest => if p c then some 0 else (firstIdx p rest).map (fun i => i + 1)

/-- Index of the last character satisfying `p`. -/
def lastIdx (p : Char → Bool) (cs : List Char) : Option Nat :=
  match firstIdx p cs.reverse with
  | some i => some (cs.length - 1 - i)
  | none => none

/-- The greedy DOTALL regex span of line 133: from the first open brace to
the last close brace, when a close brace follows the first open brace. -/
def spanExtract (cs : List Char) : Option (List Char) :=
  match firstIdx (fun c => c = lbrace) cs, lastIdx (fun c => c = rbrace) cs with
  | some i, some j => if i < j then some ((cs.drop i).take (j - i + 1)) else none
  | _, _ => none

/-- Lines 124-139: decode the oracle text directly, then fall back to the
greedy brace span; with both failing the raised exception becomes a 500
error response carrying only an error message. -/
def parseResponse (cs : List Char) : Except String JVal :=
  match jsonParse cs with
  | some v => Except.ok v
  | none =>
    match spanExtract cs with
    | some span =>
      match jsonParse span with
      | some v => Except.ok v
      | none => Except.error "Expecting value"
    | none => Except.error "Could not parse Gemini response as JSON"

/-- The decoded oracle value is used as a dict (`context.get`, line 143);
any other value raises `AttributeError`, caught as a 500 error. -/
def asObj : JVal → Except String Ctx
  | JVal.obj fs => Except.ok fs
  | _ => Except.error "AttributeError: get"

/-! ### Pipeline stages (the loops over the three field keys are unrolled
in source order: diet_type, cuisine, dish_attributes) -/

/-- The three preference field keys, in the order the source iterates them. -/
def fieldKeys : List String := ["diet_type", "cuisine", "dish_attributes"]

/-- Lines 141-144, one key: the string value "null" becomes Python `None`. -/
def nullFix (c : Ctx) (k : String) : Ctx :=
  if isNullStr (dget c k) then dset c k JVal.null else c

/-- Lines 141-144: convert the literal string "null" to `None` fieldwise. -/
def nullNormalize (c : Ctx) : Ctx :=
  nullFix (nullFix (nullFix c "diet_type") "cuisine") "dish_attributes"

/-- One character of Python `str.lower` (its ASCII fragment; every phrase and
value a claim touches is ASCII). -/
def lowerChar (c : Char) : Char :=
  if 'A' ≤ c ∧ c ≤ 'Z' then Char.ofNat (c.toNat + 32) else c

/-- Python `s.lower()` on its ASCII fragment. -/
def pyLower (s : String) : String := ⟨s.data.map lowerChar⟩

/-- The fixed "no preference" phrase list of line 147. -/
def noPreferencePhrases : List String :=
  ["no preference", "any", "anything", "whatever", "doesn\x27t matter"]

/-- Lines 146-151, one key: a truthy value has `.lower()` compared against
the phrase list (a truthy non-string raises `AttributeError`, a 500 error);
a match is replaced by the sentinel "any". -/
def noPrefFix (c : Ctx) (k : String) : Except String Ctx :=
  match dget c k with
  | some (JVal.str s) =>
    if truthy (JVal.str s) then
      if pyLower s ∈ noPreferencePhrases then Except.ok (dset c k (JVal.str "any"))
      else Except.ok c
    else Except.ok c
  | some v => if truthy v then Except.error "AttributeError: lower" else Except.ok c
  | none => Except.ok c

/-- Lines 146-151: the "no preference" normalization, fieldwise. -/
def noPrefNormalize (c : Ctx) : Except String Ctx :=
  match noPrefFix c "diet_type" with
  | Except.error e => Except.error e
  | Except.ok c1 =>
    match noPrefFix c1 "cuisine" with
    | Except.error e => Except.error e
    | Except.ok c2 => noPrefFix c2 "dish_attributes"

/-- Lines 156-162, one key: a `None` new value is replaced by a non-`None`
previous value; otherwise the new value stands. -/
def mergeFix (prev : Ctx) (c : Ctx) (k : String) : Ctx :=
  if isNoneLike (dget c k) && !(isNoneLike (dget prev k)) then
    dset c k ((dget prev k).getD JVal.null)
  else c

/-- Lines 154-162: merge the new context with the previous one, fieldwise. -/
def mergeCtx (prev : Ctx) (c : Ctx) : Ctx :=
  mergeFix prev (mergeFix prev (mergeFix prev c "diet_type") "cuisine") "dish_attributes"

/-- Canonical clarifying question for `diet_type` (lines 167 and 186). -/
def dietQuestion : String :=
  "What kind of diet are you following (vegetarian, vegan, or non-vegetarian)?"

/-- Canonical clarifying question for `cuisine` (lines 169 and 188). -/
def cuisineQuestion : String := "What type of cuisine are you interested in?"

/-- Canonical clarifying question for `dish_attributes` (lines 171 and 190). -/
def dishQuestion : String :=
  "Do you have any specific preferences for the dish (e.g., spicy, creamy, quick to make)?"

/-- The canonical question list for the fields that are still falsy, in field
order: exactly the list built by lines 165-171 and by lines 182-190. -/
def synthQuestions (c : Ctx) : List JVal :=
  (if otruthy (dget c "diet_type") then [] else [JVal.str dietQuestion]) ++
  (if otruthy (dget c "cuisine") then [] else [JVal.str cuisineQuestion]) ++
  (if otruthy (dget c "dish_attributes") then [] else [JVal.str dishQuestion])

/-- Lines 179-190 (first turn): keep a truthy oracle-supplied
`clarifying_questions` value verbatim; otherwise synthesize the canonical
questions for the falsy fields. -/
def firstTurnQuestions (c : Ctx) : Ctx :=
  if otruthy (dget c "clarifying_questions") then c
  else dset c "clarifying_questions" (JVal.arr (synthQuestions c))

/-- Lines 192-196, one key: a falsy field value defaults to "any". -/
def finalFix (c : Ctx) (k : String) : Ctx :=
  if otruthy (dget c k) then c else dset c k (JVal.str "any")

/-- Line 196: `setdefault` adds an empty question list only when the key is
absent. -/
def setdefaultQuestions (c : Ctx) : Ctx :=
  match dget c "clarifying_questions" with
  | none => dset c "clarifying_questions" (JVal.arr [])
  | some _ => c

/-- Lines 192-196: default every falsy field to "any", then `setdefault` the
question list. -/
def finalizeCtx (c : Ctx) : Ctx :=
  setdefaultQuestions (finalFix (finalFix (finalFix c "diet_type") "cuisine") "dish_attributes")

/-- Lines 57-64, one key: at the clarification bound a falsy or "null" field
of the prior context defaults to "any". -/
def boundFix (c : Ctx) (k : String) : Ctx :=
  if !(otruthy (dget c k)) || isNullStr (dget c k) then dset c k (JVal.str "any")
  else c

/-- Lines 57-64: the bound-reached path, built from the prior context alone
(`previous_context or` an empty dict), with an emptied question list. -/
def boundPath (previous : Option Ctx) : Ctx :=
  dset (boundFix (boundFix (boundFix (previous.getD []) "diet_type") "cuisine")
      "dish_attributes")
    "clarifying_questions" (JVal.arr [])

/-- A turn request that carries a `text` field: the optional
`previous_context` object and the `clarification_count` (default 0). -/
structure TurnRequest where
  previous : Option Ctx
  count : Nat

/-- Line 49. -/
def MAX_CLARIFICATIONS : Nat := 3

/-- Line 67 and line 154: truthiness of `previous_context` (present and a
non-empty object). -/
def prevTruthy : Option Ctx → Bool
  | none => false
  | some d => !d.isEmpty

/-- Lines 164-178 (follow-up turn): always regenerate the question list from
the merged context. -/
def followUpQuestions (m : Ctx) : Ctx :=
  dset m "clarifying_questions" (JVal.arr (synthQuestions m))

/-- Lines 141-190: normalization, merge and question generation applied to
the decoded oracle object, before finalization. -/
def processOracle (req : TurnRequest) (c : Ctx) : Except String Ctx :=
  match noPrefNormalize (nullNormalize c) with
  | Except.error e => Except.error e
  | Except.ok c1 =>
    if prevTruthy req.previous then
      Except.ok (followUpQuestions (mergeCtx (req.previous.getD []) c1))
    else
      Except.ok (firstTurnQuestions c1)

/-- The `extract_context` route (lines 38-204) for a request whose `text`
field is present, as a function of the request and of the raw oracle
response text: `Except.ok` is a 200 response with the final context object,
`Except.error` a 500 response carrying only an error message. -/
def extract_context (req : TurnRequest) (oracleText : List Char) : Except String Ctx :=
  if MAX_CLARIFICATIONS ≤ req.count then Except.ok (boundPath req.previous)
  else
    match parseResponse oracleText with
    | Except.error e => Except.error e
    | Except.ok v =>
      match asObj v with
      | Except.error e => Except.error e
      | Except.ok c =>
        match processOracle req c with
        | Except.error e => Except.error e
        | Except.ok c1 => Except.ok (finalizeCtx c1)

/-! ### Dict lemmas -/

theorem dget_dset_self (c : Ctx) (k : String) (v : JVal) : dget (dset c k v) k = some v := by
  induction c with
  | nil => simp [dget, dset]
  | cons p rest ih =>
    obtain ⟨k0, v0⟩ := p
    by_cases h : k0 = k <;> simp [dget, dset, h, ih]

theorem dget_dset_ne (c : Ctx) (k k' : String) (v : JVal) (h : k ≠ k') :
    dget (dset c k v) k' = dget c k' := by
  induction c with
  | nil => simp [dget, dset, h]
  | cons p rest ih =>
    obtain ⟨k0, v0⟩ := p
    by_cases h0 : k0 = k
    · subst h0; simp [dget, dset, h]
    · simp [dget, dset, h0, ih]

/-! ### Per-key characterizations of the unrolled loops -/

theorem dget_boundFix_self (c : Ctx) (k : String) :
    dget (boundFix c k) k =
      if !(otruthy (dget c k)) || isNullStr (dget c k) then some (JVal.str "any")
      else dget c k := by
  unfold boundFix
  split <;> simp_all [dget_dset_self]

theorem dget_boundFix_ne (c : Ctx) (k k' : String) (h : k ≠ k') :
    dget (boundFix c k) k' = dget c k' := by
  unfold boundFix
  split <;> simp [dget_dset_ne c k k' _ h]

theorem dget_nullFix_self (c : Ctx) (k : String) :
    dget (nullFix c k) k =
      if isNullStr (dget c k) then some JVal.null else dget c k := by
  unfold nullFix
  split <;> simp_all [dget_dset_self]

theorem dget_nullFix_ne (c : Ctx) (k k' : String) (h : k ≠ k') :
    dget (nullFix c k) k' = dget c k' := by
  unfold nullFix
  split <;> simp [dget_dset_ne c k k' _ h]

theorem dget_finalFix_self (c : Ctx) (k : String) :
    dget (finalFix c k) k =
      if otruthy (dget c k) then dget c k else some (JVal.str "any") := by
  unfold finalFix
  split <;> simp_all [dget_dset_self]

theorem dget_finalFix_ne (c : Ctx) (k k' : String) (h : k ≠ k') :
    dget (finalFix c k) k' = dget c k' := by
  unfold finalFix
  split <;> simp [dget_dset_ne c k k' _ h]

theorem dget_mergeFix_self (prev c : Ctx) (k : String) :
    dget (mergeFix prev c k) k =
      if isNoneLike (dget c k) && !(isNoneLike (dget prev k)) then dget prev k
      else dget c k := by
  unfold mergeFix
  split
  · next h =>
    rw [dget_dset_self]
    cases hp : dget prev k with
    | none => rw [hp] at h; simp [isNoneLike] at h
    | some v => simp_all
  · next h => simp [h]

theorem dget_mergeFix_ne (prev c : Ctx) (k k' : String) (h : k ≠ k') :
    dget (mergeFix prev c k) k' = dget c k' := by
  unfold mergeFix
  split <;> simp [dget_dset_ne c k k' _ h]

theorem diet_mem_fieldKeys : "diet_type" ∈ fieldKeys := by simp [fieldKeys]

theorem cuisine_mem_fieldKeys : "cuisine" ∈ fieldKeys := by simp [fieldKeys]

theorem dish_mem_fieldKeys : "dish_attributes" ∈ fieldKeys := by simp [fieldKeys]

theorem dget_boundTriple (c : Ctx) (k : String) (hk : k ∈ fieldKeys) :
    dget (boundFix (boundFix (boundFix c "diet_type") "cuisine") "dish_attributes") k =
      if !(otruthy (dget c k)) || isNullStr (dget c k) then some (JVal.str "any")
      else dget c k := by
  simp only [fieldKeys, List.mem_cons, List.not_mem_nil, or_false] at hk
  rcases hk with rfl | rfl | rfl
  · rw [dget_boundFix_ne _ _ _ (by decide), dget_boundFix_ne _ _ _ (by decide),
      dget_boundFix_self]
  · rw [dget_boundFix_ne _ _ _ (by decide), dget_boundFix_self,
      dget_boundFix_ne _ _ _ (by decide)]
  · rw [dget_boundFix_self, dget_boundFix_ne _ _ _ (by decide),
      dget_boundFix_ne _ _ _ (by decide)]

theorem dget_boundTriple_other (c : Ctx) (k : String) (hk : k ∉ fieldKeys) :
    dget (boundFix (boundFix (boundFix c "diet_type") "cuisine") "dish_attributes") k =
      dget c k := by
  simp only [fieldKeys, List.mem_cons, List.not_mem_nil, or_false, not_or] at hk
  rw [dget_boundFix_ne _ _ _ (Ne.symm hk.2.2), dget_boundFix_ne _ _ _ (Ne.symm hk.2.1),
    dget_boundFix_ne _ _ _ (Ne.symm hk.1)]

theorem dget_nullNormalize (c : Ctx) (k : String) (hk : k ∈ fieldKeys) :
    dget (nullNormalize c) k =
      if isNullStr (dget c k) then some JVal.null else dget c k := by
  unfold nullNormalize
  simp only [fieldKeys, List.mem_cons, List.not_mem_nil, or_false] at hk
  rcases hk with rfl | rfl | rfl
  · rw [dget_nullFix_ne _ _ _ (by decide), dget_nullFix_ne _ _ _ (by decide),
      dget_nullFix_self]
  · rw [dget_nullFix_ne _ _ _ (by decide), dget_nullFix_self,
      dget_nullFix_ne _ _ _ (by decide)]
  · rw [dget_nullFix_self, dget_nullFix_ne _ _ _ (by decide),
      dget_nullFix_ne _ _ _ (by decide)]

theorem dget_nullNormalize_other (c : Ctx) (k : String) (hk : k ∉ fieldKeys) :
    dget (nullNormalize c) k = dget c k := by
  unfold nullNormalize
  simp only [fieldKeys, List.mem_cons, List.not_mem_nil, or_false, not_or] at hk
  rw [dget_nullFix_ne _ _ _ (Ne.symm hk.2.2), dget_nullFix_ne _ _ _ (Ne.symm hk.2.1),
    dget_nullFix_ne _ _ _ (Ne.symm hk.1)]

theorem dget_mergeCtx (prev c : Ctx) (k : String) (hk : k ∈ fieldKeys) :
    dget (mergeCtx prev c) k =
      if isNoneLike (dget c k) && !(isNoneLike (dget prev k)) then dget prev k
      else dget c k := by
  unfold mergeCtx
  simp only [fieldKeys, List.mem_cons, List.not_mem_nil, or_false] at hk
  rcases hk with rfl | rfl | rfl
  · rw [dget_mergeFix_ne _ _ _ _ (by decide), dget_mergeFix_ne _ _ _ _ (by decide),
      dget_mergeFix_self]
  · rw [dget_mergeFix_ne _ _ _ _ (by decide), dget_mergeFix_self,
      dget_mergeFix_ne _ _ _ _ (by decide)]
  · rw [dget_mergeFix_self, dget_mergeFix_ne _ _ _ _ (by decide),
      dget_mergeFix_ne _ _ _ _ (by decide)]

theorem dget_mergeCtx_other (prev c : Ctx) (k : String) (hk : k ∉ fieldKeys) :
    dget (mergeCtx prev c) k = dget c k := by
  unfold mergeCtx
  simp only [fieldKeys, List.mem_cons, List.not_mem_nil, or_false, not_or] at hk
  rw [dget_mergeFix_ne _ _ _ _ (Ne.symm hk.2.2), dget_mergeFix_ne _ _ _ _ (Ne.symm hk.2.1),
    dget_mergeFix_ne _ _ _ _ (Ne.symm hk.1)]

theorem dget_setdefaultQuestions_ne (c : Ctx) (k : String) (h : k ≠ "clarifying_questions") :
    dget (setdefaultQuestions c) k = dget c k := by
  unfold setdefaultQuestions
  split
  · rw [dget_dset_ne _ _ _ _ (Ne.symm h)]
  · rfl

theorem dget_setdefaultQuestions_questions (c : Ctx) :
    dget (setdefaultQuestions c) "clarifying_questions" =
      some ((dget c "clarifying_questions").getD (JVal.arr [])) := by
  unfold setdefaultQuestions
  split
  · next heq => rw [dget_dset_self, heq]; rfl
  · next v heq => rw [heq]; rfl

theorem dget_finalFixTriple (c : Ctx) (k : String) (hk : k ∈ fieldKeys) :
    dget (finalFix (finalFix (finalFix c "diet_type") "cuisine") "dish_attributes") k =
      if otruthy (dget c k) then dget c k else some (JVal.str "any") := by
  simp only [fieldKeys, List.mem_cons, List.not_mem_nil, or_false] at hk
  rcases hk with rfl | rfl | rfl
  · rw [dget_finalFix_ne _ _ _ (by decide), dget_finalFix_ne _ _ _ (by decide),
      dget_finalFix_self]
  · rw [dget_finalFix_ne _ _ _ (by decide), dget_finalFix_self,
      dget_finalFix_ne _ _ _ (by decide)]
  · rw [dget_finalFix_self, dget_finalFix_ne _ _ _ (by decide),
      dget_finalFix_ne _ _ _ (by decide)]

theorem dget_finalizeCtx (c : Ctx) (k : String) (hk : k ∈ fieldKeys) :
    dget (finalizeCtx c) k =
      if otruthy (dget c k) then dget c k else some (JVal.str "any") := by
  have hkq : k ≠ "clarifying_questions" := by
    simp only [fieldKeys, List.mem_cons, List.not_mem_nil, or_false] at hk
    rcases hk with rfl | rfl | rfl <;> decide
  unfold finalizeCtx
  rw [dget_setdefaultQuestions_ne _ _ hkq, dget_finalFixTriple c k hk]

theorem dget_finalizeCtx_questions (c : Ctx) :
    dget (finalizeCtx c) "clarifying_questions" =
      some ((dget c "clarifying_questions").getD (JVal.arr [])) := by
  unfold finalizeCtx
  rw [dget_setdefaultQuestions_questions,
    dget_finalFix_ne _ _ _ (by decide), dget_finalFix_ne _ _ _ (by decide),
    dget_finalFix_ne _ _ _ (by decide)]

/-! ### Claim theorems -/

/-- C1: for every turn request with `clarification_count >= 3`,
`extract_context` returns without consulting the oracle (its result is the
same for every oracle text), the returned `clarifying_questions` list is
empty, and each of `diet_type`, `cuisine`, `dish_attributes` equals "any"
when it was absent, falsy, or the string "null" in `previous_context`, and
otherwise equals its `previous_context` value; no field is `Unset`/null in
this output. -/
theorem C1_bound_terminal (prev : Option Ctx) (count : Nat) (t : List Char)
    (h : MAX_CLARIFICATIONS ≤ count) :
    ∃ ctx, extract_context ⟨prev, count⟩ t = Except.ok ctx ∧
      (∀ t', extract_context ⟨prev, count⟩ t' = Except.ok ctx) ∧
      dget ctx "clarifying_questions" = some (JVal.arr []) ∧
      (∀ k, k ∈ fieldKeys →
        dget ctx k =
          if !(otruthy (dget (prev.getD []) k)) || isNullStr (dget (prev.getD []) k)
          then some (JVal.str "any") else dget (prev.getD []) k) ∧
      (∀ k, k ∈ fieldKeys → otruthy (dget ctx k) = true) := by
  have hkq : ∀ k, k ∈ fieldKeys → "clarifying_questions" ≠ k := by
    intro k hk
    simp only [fieldKeys, List.mem_cons, List.not_mem_nil, or_false] at hk
    rcases hk with rfl | rfl | rfl <;> decide
  refine ⟨boundPath prev, ?_, ?_, ?_, ?_, ?_⟩
  · simp [extract_context, h]
  · intro t'
    simp [extract_context, h]
  · unfold boundPath
    rw [dget_dset_self]
  · intro k hk
    unfold boundPath
    rw [dget_dset_ne _ _ _ _ (hkq k hk), dget_boundTriple _ _ hk]
  · intro k hk
    unfold boundPath
    rw [dget_dset_ne _ _ _ _ (hkq k hk), dget_boundTriple _ _ hk]
    split
    · rfl
    · next hcond =>
      simp only [Bool.or_eq_true, Bool.not_eq_true', not_or, Bool.not_eq_false] at hcond
      exact hcond.1

/-- Witness for C1: a concrete bound-reached request, with a falsy field, a
"null" field and a kept field in the prior context. -/
theorem C1_bound_terminal_witness :
    MAX_CLARIFICATIONS ≤ 3 ∧
    (∃ ctx, extract_context
        ⟨some [("diet_type", JVal.str "vegan"), ("cuisine", JVal.str "null")], 3⟩
        "oracle text that is never consulted".toList = Except.ok ctx ∧
      (∀ t', extract_context
          ⟨some [("diet_type", JVal.str "vegan"), ("cuisine", JVal.str "null")], 3⟩
          t' = Except.ok ctx) ∧
      dget ctx "clarifying_questions" = some (JVal.arr []) ∧
      (∀ k, k ∈ fieldKeys →
        dget ctx k =
          if !(otruthy (dget ((some [("diet_type", JVal.str "vegan"),
              ("cuisine", JVal.str "null")] : Option Ctx).getD []) k)) ||
            isNullStr (dget ((some [("diet_type", JVal.str "vegan"),
              ("cuisine", JVal.str "null")] : Option Ctx).getD []) k)
          then some (JVal.str "any")
          else dget ((some [("diet_type", JVal.str "vegan"),
              ("cuisine", JVal.str "null")] : Option Ctx).getD []) k) ∧
      (∀ k, k ∈ fieldKeys → otruthy (dget ctx k) = true)) :=
  ⟨by decide, C1_bound_terminal _ 3 _ (by decide)⟩

/-- C2: with a prior context present, the merge is applied independently to
each field: a `None` (Unset) new value with a set prior value keeps the prior
value; a set (non-`None`) new value wins regardless of the prior; two `None`
values stay `None`. -/
theorem C2_merge_rule (prev c : Ctx) (k : String) (hk : k ∈ fieldKeys) :
    (isNoneLike (dget c k) = true → isNoneLike (dget prev k) = false →
      dget (mergeCtx prev c) k = dget prev k) ∧
    (isNoneLike (dget c k) = false → dget (mergeCtx prev c) k = dget c k) ∧
    (isNoneLike (dget c k) = true → isNoneLike (dget prev k) = true →
      isNoneLike (dget (mergeCtx prev c) k) = true) := by
  refine ⟨?_, ?_, ?_⟩
  · intro h1 h2
    rw [dget_mergeCtx prev c k hk]
    simp [h1, h2]
  · intro h1
    rw [dget_mergeCtx prev c k hk]
    simp [h1]
  · intro h1 h2
    rw [dget_mergeCtx prev c k hk]
    simp [h1, h2]

/-- The prior context of the specification's merge example. -/
def C2prev : Ctx :=
  [("diet_type", JVal.str "vegan"), ("cuisine", JVal.null), ("dish_attributes", JVal.null)]

/-- The new (interpreted) context of the specification's merge example. -/
def C2new : Ctx :=
  [("diet_type", JVal.null), ("cuisine", JVal.str "italian"), ("dish_attributes", JVal.null)]

/-- Witness for C2: the specification's concrete merge example, yielding
diet_type "vegan" (kept), cuisine "italian" (override), dish_attributes
`Unset`. -/
theorem C2_merge_rule_witness :
    dget (mergeCtx C2prev C2new) "diet_type" = some (JVal.str "vegan") ∧
    dget (mergeCtx C2prev C2new) "cuisine" = some (JVal.str "italian") ∧
    isNoneLike (dget (mergeCtx C2prev C2new) "dish_attributes") = true :=
  ⟨((C2_merge_rule C2prev C2new "diet_type" diet_mem_fieldKeys).1 rfl rfl).trans rfl,
    ((C2_merge_rule C2prev C2new "cuisine" cuisine_mem_fieldKeys).2.1 rfl).trans rfl,
    (C2_merge_rule C2prev C2new "dish_attributes" dish_mem_fieldKeys).2.2 rfl rfl⟩

/-! ### Idempotence of the "no preference" normalization -/

theorem dset_dget_eq (c : Ctx) (k : String) (v : JVal) (h : dget c k = some v) :
    dset c k v = c := by
  induction c with
  | nil => simp [dget] at h
  | cons p rest ih =>
    obtain ⟨k0, v0⟩ := p
    by_cases h0 : k0 = k
    · subst h0
      simp [dget] at h
      simp [dset, h]
    · simp [dget, h0] at h
      simp [dset, h0, ih h]

theorem noPrefFix_ok_dget_ne (c c' : Ctx) (k k' : String) (hne : k ≠ k')
    (h : noPrefFix c k = Except.ok c') : dget c' k' = dget c k' := by
  unfold noPrefFix at h
  split at h
  · split at h
    · split at h
      · simp only [Except.ok.injEq] at h
        subst h
        rw [dget_dset_ne _ _ _ _ hne]
      · simp only [Except.ok.injEq] at h
        subst h; rfl
    · simp only [Except.ok.injEq] at h
      subst h; rfl
  · split at h
    · exact absurd h (by simp)
    · simp only [Except.ok.injEq] at h
      subst h; rfl
  · simp only [Except.ok.injEq] at h
    subst h; rfl

/-- A context whose value at `k` the normalization cannot change is a fixed
point of `noPrefFix` at `k`. -/
theorem noPrefFix_stable (x : Ctx) (k : String)
    (h1 : ∀ s, dget x k = some (JVal.str s) → truthy (JVal.str s) = true →
      pyLower s ∈ noPreferencePhrases → s = "any")
    (h2 : ∀ v, dget x k = some v → truthy v = true → ∃ s, v = JVal.str s) :
    noPrefFix x k = Except.ok x := by
  unfold noPrefFix
  split
  · next s heq =>
    split
    · next ht =>
      split
      · next hp =>
        rw [dset_dget_eq x k (JVal.str "any") ((h1 s heq ht hp) ▸ heq)]
      · rfl
    · rfl
  · next v hnotstr heq =>
    split
    · next ht =>
      obtain ⟨s, rfl⟩ := h2 v heq ht
      exact absurd rfl (hnotstr s)
    · rfl
  · rfl

/-- After a successful `noPrefFix` pass at `k`, the value at `k` is one the
normalization can no longer change. -/
theorem noPrefFix_ok_stable (c c' : Ctx) (k : String) (h : noPrefFix c k = Except.ok c') :
    (∀ s, dget c' k = some (JVal.str s) → truthy (JVal.str s) = true →
      pyLower s ∈ noPreferencePhrases → s = "any") ∧
    (∀ v, dget c' k = some v → truthy v = true → ∃ s, v = JVal.str s) := by
  unfold noPrefFix at h
  split at h
  · next s heq =>
    split at h
    · next ht =>
      split at h
      · next hp =>
        simp only [Except.ok.injEq] at h
        subst h
        constructor
        · intro s' hs' _ _
          rw [dget_dset_self] at hs'
          injection hs' with hs'
          injection hs' with hs'
          exact hs'.symm
        · intro v hv _
          rw [dget_dset_self] at hv
          injection hv with hv
          exact ⟨"any", hv.symm⟩
      · next hp =>
        simp only [Except.ok.injEq] at h
        subst h
        constructor
        · intro s' hs' ht' hp'
          rw [heq] at hs'
          injection hs' with hs'
          injection hs' with hs'
          subst hs'
          exact absurd hp' hp
        · intro v hv _
          rw [heq] at hv
          injection hv with hv
          exact ⟨s, hv.symm⟩
    · next ht =>
      simp only [Except.ok.injEq] at h
      subst h
      constructor
      · intro s' hs' ht' _
        rw [heq] at hs'
        injection hs' with hs'
        injection hs' with hs'
        subst hs'
        exact absurd ht' ht
      · intro v hv ht'
        rw [heq] at hv
        injection hv with hv
        subst hv
        exact absurd ht' ht
  · next v hnotstr heq =>
    split at h
    · exact absurd h (by simp)
    · next ht =>
      simp only [Except.ok.injEq] at h
      subst h
      constructor
      · intro s' hs' _ _
        rw [heq] at hs'
        injection hs' with hs'
        exact absurd hs' (hnotstr s')
      · intro v' hv' ht'
        rw [heq] at hv'
        injection hv' with hv'
        subst hv'
        exact absurd ht' ht
  · next heq =>
    simp only [Except.ok.injEq] at h
    subst h
    constructor
    · intro s' hs' _ _
      rw [heq] at hs'
      exact absurd hs' (by simp)
    · intro v hv _
      rw [heq] at hv
      exact absurd hv (by simp)

/-- A successful run of the "no preference" normalization yields one of its
fixed points. -/
theorem noPrefNormalize_ok_idem (c c' : Ctx) (h : noPrefNormalize c = Except.ok c') :
    noPrefNormalize c' = Except.ok c' := by
  unfold noPrefNormalize at h ⊢
  split at h
  · exact absurd h (by simp)
  · next c1 heq1 =>
    split at h
    · exact absurd h (by simp)
    · next c2 heq2 =>
      have sd := noPrefFix_ok_stable c c1 "diet_type" heq1
      have sc := noPrefFix_ok_stable c1 c2 "cuisine" heq2
      have sa := noPrefFix_ok_stable c2 c' "dish_attributes" h
      have t1 : dget c' "diet_type" = dget c1 "diet_type" := by
        rw [noPrefFix_ok_dget_ne c2 c' _ _ (by decide) h,
          noPrefFix_ok_dget_ne c1 c2 _ _ (by decide) heq2]
      have t2 : dget c' "cuisine" = dget c2 "cuisine" :=
        noPrefFix_ok_dget_ne c2 c' _ _ (by decide) h
      have n1 : noPrefFix c' "diet_type" = Except.ok c' := by
        apply noPrefFix_stable
        · intro s hs ht hp
          rw [t1] at hs
          exact sd.1 s hs ht hp
        · intro v hv ht
          rw [t1] at hv
          exact sd.2 v hv ht
      have n2 : noPrefFix c' "cuisine" = Except.ok c' := by
        apply noPrefFix_stable
        · intro s hs ht hp
          rw [t2] at hs
          exact sc.1 s hs ht hp
        · intro v hv ht
          rw [t2] at hv
          exact sc.2 v hv ht
      have n3 : noPrefFix c' "dish_attributes" = Except.ok c' :=
        noPrefFix_stable c' "dish_attributes" sa.1 sa.2
      simp only [n1, n2, n3]

/-- C8: the "no preference" normalization stage is idempotent — for every
context triple, applying the stage twice (Kleisli composition) yields exactly
the result of applying it once. -/
theorem C8_noPref_idempotent (c : Ctx) :
    (noPrefNormalize c).bind noPrefNormalize = noPrefNormalize c := by
  cases h : noPrefNormalize c with
  | error e => rfl
  | ok c' => exact noPrefNormalize_ok_idem c c' h

/-! ### The two-stage oracle-response parse -/

/-- The decorated oracle text of the specification's malformed-text example. -/
def c5text : String :=
  "Here is the result: \x7b\"diet_type\": \"vegan\", \"cuisine\": null, \"dish_attributes\": null, \"clarifying_questions\": []\x7d  Hope that helps!"

/-- C5: the interpreter first decodes the whole text; failing that, it decodes
the greedy span from the first open brace to the last close brace; on the
specification's decorated example this extracts the embedded object, and the
"null" normalization leaves diet_type "vegan" and the other two fields
`Unset`. -/
theorem C5_two_stage_parse :
    (∀ cs v, jsonParse cs = some v → parseResponse cs = Except.ok v) ∧
    (∀ cs i j, jsonParse cs = none →
      firstIdx (fun c => c = lbrace) cs = some i →
      lastIdx (fun c => c = rbrace) cs = some j → i < j →
      parseResponse cs =
        (match jsonParse ((cs.drop i).take (j - i + 1)) with
          | some v => Except.ok v
          | none => Except.error "Expecting value")) ∧
    (∃ fs, parseResponse c5text.toList = Except.ok (JVal.obj fs) ∧
      dget (nullNormalize fs) "diet_type" = some (JVal.str "vegan") ∧
      isNoneLike (dget (nullNormalize fs) "cuisine") = true ∧
      isNoneLike (dget (nullNormalize fs) "dish_attributes") = true) := by
  refine ⟨?_, ?_, ?_⟩
  · intro cs v h
    unfold parseResponse
    rw [h]
  · intro cs i j h hf hl hij
    have hs : spanExtract cs = some ((cs.drop i).take (j - i + 1)) := by
      unfold spanExtract
      simp only [hf, hl]
      rw [if_pos hij]
    unfold parseResponse
    rw [h]
    simp only [hs]
  · exact ⟨[("diet_type", JVal.str "vegan"), ("cuisine", JVal.null),
      ("dish_attributes", JVal.null), ("clarifying_questions", JVal.arr [])],
      rfl, rfl, rfl, rfl⟩

/-- Witness for C5: a whole-text decode and a span-fallback decode at concrete
inputs. -/
theorem C5_two_stage_parse_witness :
    (jsonParse "\x7b\"a\": 1\x7d".toList = some (JVal.obj [("a", JVal.num 1)]) ∧
      parseResponse "\x7b\"a\": 1\x7d".toList = Except.ok (JVal.obj [("a", JVal.num 1)])) ∧
    (jsonParse "x \x7b\"a\": 1\x7d y".toList = none ∧
      firstIdx (fun c => c = lbrace) "x \x7b\"a\": 1\x7d y".toList = some 2 ∧
      lastIdx (fun c => c = rbrace) "x \x7b\"a\": 1\x7d y".toList = some 9 ∧
      2 < 9 ∧
      parseResponse "x \x7b\"a\": 1\x7d y".toList =
        (match jsonParse (("x \x7b\"a\": 1\x7d y".toList.drop 2).take (9 - 2 + 1)) with
          | some v => Except.ok v
          | none => Except.error "Expecting value")) :=
  ⟨⟨rfl, C5_two_stage_parse.1 _ _ rfl⟩,
    ⟨rfl, rfl, rfl, by decide, C5_two_stage_parse.2.1 _ 2 9 rfl rfl rfl (by decide)⟩⟩

/-- With both parse attempts failing, the two-stage parse yields an error. -/
theorem parseResponse_err (t : List Char) (hdirect : jsonParse t = none)
    (hspan : ∀ span, spanExtract t = some span → jsonParse span = none) :
    ∃ msg, parseResponse t = Except.error msg := by
  unfold parseResponse
  rw [hdirect]
  cases hs : spanExtract t with
  | none => exact ⟨_, rfl⟩
  | some span =>
    simp only [hs, hspan span hs]
    exact ⟨_, rfl⟩

/-- C6: on every turn that consults the oracle, an oracle text on which the
direct decode fails and the brace-span decode fails (or no span exists) makes
`extract_context` return an error result — no context object is returned. -/
theorem C6_parse_failure_is_error (req : TurnRequest) (t : List Char)
    (hc : req.count < MAX_CLARIFICATIONS)
    (hdirect : jsonParse t = none)
    (hspan : ∀ span, spanExtract t = some span → jsonParse span = none) :
    ∃ msg, extract_context req t = Except.error msg := by
  obtain ⟨m, hm⟩ := parseResponse_err t hdirect hspan
  refine ⟨m, ?_⟩
  unfold extract_context
  rw [if_neg (by omega)]
  simp only [hm]

/-- Witness for C6: a concrete oracle text with no JSON object at all. -/
theorem C6_parse_failure_is_error_witness :
    0 < MAX_CLARIFICATIONS ∧
    jsonParse "sorry, no structured answer today".toList = none ∧
    spanExtract "sorry, no structured answer today".toList = none ∧
    (∃ msg, extract_context ⟨none, 0⟩ "sorry, no structured answer today".toList =
      Except.error msg) :=
  ⟨by decide, rfl, rfl,
    C6_parse_failure_is_error ⟨none, 0⟩ _ (by decide) rfl
      (fun span h => Option.noConfusion
        ((Eq.symm (rfl : spanExtract "sorry, no structured answer today".toList = none)).trans h))⟩

/-- A successful `noPrefFix` pass at `k` implies the truthy value at `k` of
its input was a string (a truthy non-string raises `AttributeError`). -/
theorem noPrefFix_ok_input_str (c c' : Ctx) (k : String) (h : noPrefFix c k = Except.ok c') :
    ∀ v, dget c k = some v → truthy v = true → ∃ s, v = JVal.str s := by
  unfold noPrefFix at h
  split at h
  · next s heq =>
    intro v hv _
    rw [heq] at hv
    injection hv with hv
    exact ⟨s, hv.symm⟩
  · next v0 hnotstr heq =>
    split at h
    · exact absurd h (by simp)
    · next ht =>
      intro v hv ht'
      rw [heq] at hv
      injection hv with hv
      subst hv
      exact absurd ht' ht
  · next heq =>
    intro v hv _
    rw [heq] at hv
    exact absurd hv (by simp)

/-- A successful run of the whole "no preference" stage implies every truthy
field value of its input was a string. -/
theorem noPrefNormalize_ok_input_str (c c' : Ctx) (h : noPrefNormalize c = Except.ok c')
    (k : String) (hk : k ∈ fieldKeys) :
    ∀ v, dget c k = some v → truthy v = true → ∃ s, v = JVal.str s := by
  unfold noPrefNormalize at h
  split at h
  · exact absurd h (by simp)
  · next c1 heq1 =>
    split at h
    · exact absurd h (by simp)
    · next c2 heq2 =>
      simp only [fieldKeys, List.mem_cons, List.not_mem_nil, or_false] at hk
      rcases hk with rfl | rfl | rfl
      · exact noPrefFix_ok_input_str c c1 _ heq1
      · intro v hv ht
        refine noPrefFix_ok_input_str c1 c2 _ heq2 v ?_ ht
        rw [noPrefFix_ok_dget_ne c c1 _ _ (by decide) heq1]
        exact hv
      · intro v hv ht
        refine noPrefFix_ok_input_str c2 c' _ h v ?_ ht
        rw [noPrefFix_ok_dget_ne c1 c2 _ _ (by decide) heq2,
          noPrefFix_ok_dget_ne c c1 _ _ (by decide) heq1]
        exact hv

/-- C10: an oracle object that maps one of the three fields to a truthy
non-string value (a number, a non-empty list, ...) makes the turn terminate
with an error result — the case-insensitive comparison of the normalization
stage is only defined on strings, so no context object is returned. -/
theorem C10_truthy_nonstring_is_error (req : TurnRequest) (t : List Char) (fs : Ctx)
    (v0 : JVal) (k : String)
    (hc : req.count < MAX_CLARIFICATIONS)
    (hparse : parseResponse t = Except.ok (JVal.obj fs))
    (hk : k ∈ fieldKeys)
    (hv : dget fs k = some v0)
    (ht : truthy v0 = true)
    (hstr : ∀ s, v0 ≠ JVal.str s) :
    ∃ msg, extract_context req t = Except.error msg := by
  have hnullfix : isNullStr (some v0) = false := by
    cases v0 with
    | str s => exact absurd rfl (hstr s)
    | null => rfl
    | bool b => rfl
    | num n => rfl
    | arr xs => rfl
    | obj gs => rfl
  have hval : dget (nullNormalize fs) k = some v0 := by
    rw [dget_nullNormalize fs k hk, hv, hnullfix]
    simp
  cases hnp : noPrefNormalize (nullNormalize fs) with
  | ok c1 =>
    obtain ⟨s, hs⟩ := noPrefNormalize_ok_input_str _ _ hnp k hk v0 hval ht
    exact absurd hs (hstr s)
  | error m =>
    refine ⟨m, ?_⟩
    unfold extract_context
    rw [if_neg (by omega)]
    simp only [hparse, asObj]
    unfold processOracle
    simp only [hnp]

/-- Witness for C10: the oracle maps `cuisine` to the number 7. -/
theorem C10_truthy_nonstring_is_error_witness :
    0 < MAX_CLARIFICATIONS ∧
    parseResponse "\x7b\"cuisine\": 7\x7d".toList = Except.ok (JVal.obj [("cuisine", JVal.num 7)]) ∧
    "cuisine" ∈ fieldKeys ∧
    dget [("cuisine", JVal.num 7)] "cuisine" = some (JVal.num 7) ∧
    truthy (JVal.num 7) = true ∧
    (∃ msg, extract_context ⟨none, 0⟩ "\x7b\"cuisine\": 7\x7d".toList = Except.error msg) :=
  ⟨by decide, rfl, cuisine_mem_fieldKeys, rfl, rfl,
    C10_truthy_nonstring_is_error ⟨none, 0⟩ _ [("cuisine", JVal.num 7)] (JVal.num 7) "cuisine"
      (by decide) rfl cuisine_mem_fieldKeys rfl rfl (fun s h => JVal.noConfusion h)⟩

/-! ### Inversion and path lemmas for the non-bound pipeline -/

theorem asObj_ok (v : JVal) (fs : Ctx) (h : asObj v = Except.ok fs) : v = JVal.obj fs := by
  cases v <;> simp_all [asObj]

/-- Every successful non-bound run decomposes into parse, normalization and
the question-generation path, finalized. -/
theorem extract_context_ok_inv (req : TurnRequest) (t : List Char) (c : Ctx)
    (hc : req.count < MAX_CLARIFICATIONS)
    (h : extract_context req t = Except.ok c) :
    ∃ fs c1, parseResponse t = Except.ok (JVal.obj fs) ∧
      noPrefNormalize (nullNormalize fs) = Except.ok c1 ∧
      c = finalizeCtx (if prevTruthy req.previous
        then followUpQuestions (mergeCtx (req.previous.getD []) c1)
        else firstTurnQuestions c1) := by
  unfold extract_context at h
  rw [if_neg (by omega)] at h
  split at h
  · exact absurd h (by simp)
  · next v hv =>
    split at h
    · exact absurd h (by simp)
    · next fs hfs =>
      obtain rfl := asObj_ok v fs hfs
      split at h
      · exact absurd h (by simp)
      · next c1x hpo =>
        simp only [Except.ok.injEq] at h
        unfold processOracle at hpo
        split at hpo
        · exact absurd hpo (by simp)
        · next c1 hnp =>
          by_cases hpt : prevTruthy req.previous = true
          · rw [if_pos hpt] at hpo
            simp only [Except.ok.injEq] at hpo
            exact ⟨fs, c1, hv, hnp, by rw [if_pos hpt, hpo, h]⟩
          · rw [if_neg hpt] at hpo
            simp only [Except.ok.injEq] at hpo
            exact ⟨fs, c1, hv, hnp, by rw [if_neg hpt, hpo, h]⟩

/-- Every field of a finalized context is truthy. -/
theorem finalizeCtx_fields_truthy (x : Ctx) (k : String) (hk : k ∈ fieldKeys) :
    otruthy (dget (finalizeCtx x) k) = true := by
  rw [dget_finalizeCtx x k hk]
  split
  · next hcond => exact hcond
  · rfl

theorem mem_fieldKeys_ne_questions (k : String) (hk : k ∈ fieldKeys) :
    "clarifying_questions" ≠ k := by
  simp only [fieldKeys, List.mem_cons, List.not_mem_nil, or_false] at hk
  rcases hk with rfl | rfl | rfl <;> decide

theorem dget_followUpQuestions_field (m : Ctx) (k : String) (hk : k ∈ fieldKeys) :
    dget (followUpQuestions m) k = dget m k :=
  dget_dset_ne m _ k _ (mem_fieldKeys_ne_questions k hk)

theorem dget_followUpQuestions_questions (m : Ctx) :
    dget (followUpQuestions m) "clarifying_questions" = some (JVal.arr (synthQuestions m)) :=
  dget_dset_self m _ _

theorem dget_firstTurnQuestions_field (c : Ctx) (k : String) (hk : k ∈ fieldKeys) :
    dget (firstTurnQuestions c) k = dget c k := by
  unfold firstTurnQuestions
  split
  · rfl
  · exact dget_dset_ne c _ k _ (mem_fieldKeys_ne_questions k hk)

/-- With every field truthy, no question is synthesized. -/
theorem synthQuestions_empty (m : Ctx)
    (h : ∀ k, k ∈ fieldKeys → otruthy (dget m k) = true) : synthQuestions m = [] := by
  unfold synthQuestions
  rw [h _ diet_mem_fieldKeys, h _ cuisine_mem_fieldKeys, h _ dish_mem_fieldKeys]
  simp

/-- A successful `noPrefFix` pass leaves the value at its key unchanged or
set to "any". -/
theorem noPrefFix_ok_dget_self (c c' : Ctx) (k : String) (h : noPrefFix c k = Except.ok c') :
    dget c' k = dget c k ∨ dget c' k = some (JVal.str "any") := by
  unfold noPrefFix at h
  split at h
  · next s heq =>
    split at h
    · split at h
      · simp only [Except.ok.injEq] at h
        subst h
        right
        exact dget_dset_self ..
      · simp only [Except.ok.injEq] at h
        subst h
        left; rfl
    · simp only [Except.ok.injEq] at h
      subst h
      left; rfl
  · split at h
    · exact absurd h (by simp)
    · simp only [Except.ok.injEq] at h
      subst h
      left; rfl
  · simp only [Except.ok.injEq] at h
    subst h
    left; rfl

/-- The whole "no preference" stage leaves each field value unchanged or set
to "any". -/
theorem noPrefNormalize_ok_dget (c c' : Ctx) (h : noPrefNormalize c = Except.ok c')
    (k : String) (hk : k ∈ fieldKeys) :
    dget c' k = dget c k ∨ dget c' k = some (JVal.str "any") := by
  unfold noPrefNormalize at h
  split at h
  · exact absurd h (by simp)
  · next c1 heq1 =>
    split at h
    · exact absurd h (by simp)
    · next c2 heq2 =>
      simp only [fieldKeys, List.mem_cons, List.not_mem_nil, or_false] at hk
      rcases hk with rfl | rfl | rfl
      · rw [noPrefFix_ok_dget_ne c2 c' _ _ (by decide) h,
          noPrefFix_ok_dget_ne c1 c2 _ _ (by decide) heq2]
        exact noPrefFix_ok_dget_self c c1 _ heq1
      · rw [noPrefFix_ok_dget_ne c2 c' _ _ (by decide) h]
        rcases noPrefFix_ok_dget_self c1 c2 _ heq2 with h' | h'
        · rw [h', noPrefFix_ok_dget_ne c c1 _ _ (by decide) heq1]
          left; rfl
        · right; exact h'
      · rcases noPrefFix_ok_dget_self c2 c' _ h with h' | h'
        · rw [h', noPrefFix_ok_dget_ne c1 c2 _ _ (by decide) heq2,
            noPrefFix_ok_dget_ne c c1 _ _ (by decide) heq1]
          left; rfl
        · right; exact h'

/-- Finalization preserves "not the literal null string" and makes every
field present. -/
theorem finalizeCtx_no_null (x : Ctx) (k : String) (hk : k ∈ fieldKeys)
    (hxk : isNullStr (dget x k) = false) :
    isNullStr (dget (finalizeCtx x) k) = false ∧ dget (finalizeCtx x) k ≠ none := by
  rw [dget_finalizeCtx x k hk]
  split
  · next hcond =>
    refine ⟨hxk, ?_⟩
    cases hd : dget x k with
    | none => rw [hd] at hcond; exact absurd hcond (by simp [otruthy])
    | some v => simp
  · exact ⟨rfl, by simp⟩

/-! ### Claim C3 -/

/-- An oracle response leaving every field `Unset`, with no suggested
questions. -/
def c3text : String :=
  "\x7b\"diet_type\": null, \"cuisine\": null, \"dish_attributes\": null, \"clarifying_questions\": []\x7d"

/-- The response of a first turn (count 0) on `c3text`. -/
def c3out : Ctx :=
  [("diet_type", JVal.str "any"), ("cuisine", JVal.str "any"),
    ("dish_attributes", JVal.str "any"),
    ("clarifying_questions",
      JVal.arr [JVal.str dietQuestion, JVal.str cuisineQuestion, JVal.str dishQuestion])]

/-- C3 counterexample: on a first turn with `clarification_count = 0` (a
non-terminal path) and an oracle response leaving every field `Unset`, the
returned context carries "any" for `diet_type` — not `Unset`/null — even
though a clarifying question for `diet_type` is pending in the same output.
The claim's "fields still Unset remain Unset in the returned context" is
false on the code. -/
theorem C3_counterexample :
    (0 : Nat) < MAX_CLARIFICATIONS ∧
    extract_context ⟨none, 0⟩ c3text.toList = Except.ok c3out ∧
    dget c3out "clarifying_questions" =
      some (JVal.arr [JVal.str dietQuestion, JVal.str cuisineQuestion, JVal.str dishQuestion]) ∧
    dget c3out "diet_type" = some (JVal.str "any") ∧
    isNoneLike (dget c3out "diet_type") = false :=
  ⟨by decide, rfl, rfl, rfl, rfl⟩

/-- C3 (amended): a field still falsy (`Unset` included) after merge and
question generation is coerced to "any" in the returned context on every
successful path, terminal or not: at the bound, fields falsy in the prior
context are returned as "any"; below the bound, fields falsy after merge and
question generation are returned as "any" on both the first-turn and the
follow-up path — they never remain `Unset`; the clarifying questions,
regenerated from the merged context on follow-up turns, are computed before
that coercion and still surface the fields that were `Unset`/falsy after the
merge. -/
theorem C3_unset_coerced_any (req : TurnRequest) (t : List Char) (c : Ctx)
    (h : extract_context req t = Except.ok c) :
    (MAX_CLARIFICATIONS ≤ req.count →
      ∀ k, k ∈ fieldKeys →
        otruthy (dget (req.previous.getD []) k) = false →
        dget c k = some (JVal.str "any")) ∧
    (req.count < MAX_CLARIFICATIONS →
      ∃ fs c1, parseResponse t = Except.ok (JVal.obj fs) ∧
        noPrefNormalize (nullNormalize fs) = Except.ok c1 ∧
        (∀ k, k ∈ fieldKeys →
          otruthy (dget (if prevTruthy req.previous
              then mergeCtx (req.previous.getD []) c1
              else c1) k) = false →
          dget c k = some (JVal.str "any")) ∧
        (∀ k, k ∈ fieldKeys → otruthy (dget c k) = true) ∧
        (prevTruthy req.previous = true →
          dget c "clarifying_questions" =
            some (JVal.arr (synthQuestions (mergeCtx (req.previous.getD []) c1))))) := by
  constructor
  · intro hge k hk hfalse
    have hterm : boundPath req.previous = c := by
      unfold extract_context at h
      rw [if_pos hge] at h
      simpa using h
    subst hterm
    unfold boundPath
    rw [dget_dset_ne _ _ _ _ (mem_fieldKeys_ne_questions k hk), dget_boundTriple _ _ hk,
      hfalse]
    simp
  · intro hlt
    obtain ⟨fs, c1, hparse, hnp, hcfin⟩ := extract_context_ok_inv req t c hlt h
    subst hcfin
    refine ⟨fs, c1, hparse, hnp, ?_, ?_, ?_⟩
    · intro k hk hfalse
      by_cases hpt : prevTruthy req.previous = true
      · rw [if_pos hpt] at hfalse ⊢
        rw [dget_finalizeCtx _ k hk, dget_followUpQuestions_field _ k hk, hfalse]
        simp
      · rw [if_neg hpt] at hfalse ⊢
        rw [dget_finalizeCtx _ k hk, dget_firstTurnQuestions_field _ k hk, hfalse]
        simp
    · intro k hk
      exact finalizeCtx_fields_truthy _ k hk
    · intro hpt
      rw [if_pos hpt, dget_finalizeCtx_questions, dget_followUpQuestions_questions]
      rfl

/-- The response of a follow-up turn (count 1, prior diet "vegan") on
`c3text`. -/
def c3wout : Ctx :=
  [("diet_type", JVal.str "vegan"), ("cuisine", JVal.str "any"),
    ("dish_attributes", JVal.str "any"),
    ("clarifying_questions", JVal.arr [JVal.str cuisineQuestion, JVal.str dishQuestion])]

/-- The prior context of the concrete follow-up turn witnessing the amended
C3. -/
def c3wprev : Option Ctx := some [("diet_type", JVal.str "vegan")]

/-- Witness for the amended C3 at a concrete follow-up turn below the bound. -/
theorem C3_unset_coerced_any_witness :
    extract_context ⟨c3wprev, 1⟩ c3text.toList = Except.ok c3wout ∧
    ((MAX_CLARIFICATIONS ≤ 1 →
      ∀ k, k ∈ fieldKeys →
        otruthy (dget (c3wprev.getD []) k) = false →
        dget c3wout k = some (JVal.str "any")) ∧
    (1 < MAX_CLARIFICATIONS →
      ∃ fs c1, parseResponse c3text.toList = Except.ok (JVal.obj fs) ∧
        noPrefNormalize (nullNormalize fs) = Except.ok c1 ∧
        (∀ k, k ∈ fieldKeys →
          otruthy (dget (if prevTruthy c3wprev
              then mergeCtx (c3wprev.getD []) c1
              else c1) k) = false →
          dget c3wout k = some (JVal.str "any")) ∧
        (∀ k, k ∈ fieldKeys → otruthy (dget c3wout k) = true) ∧
        (prevTruthy c3wprev = true →
          dget c3wout "clarifying_questions" =
            some (JVal.arr (synthQuestions (mergeCtx (c3wprev.getD []) c1)))))) :=
  ⟨rfl, C3_unset_coerced_any ⟨c3wprev, 1⟩ c3text.toList c3wout rfl⟩

/-! ### Claim C4 -/

/-- An oracle response with all three fields resolved and a non-empty
suggested-question list. -/
def c4text : String :=
  "\x7b\"diet_type\": \"vegan\", \"cuisine\": \"italian\", \"dish_attributes\": \"spicy\", \"clarifying_questions\": [\"Anything else?\"]\x7d"

/-- The response of a first turn (count 0) on `c4text`. -/
def c4out : Ctx :=
  [("diet_type", JVal.str "vegan"), ("cuisine", JVal.str "italian"),
    ("dish_attributes", JVal.str "spicy"),
    ("clarifying_questions", JVal.arr [JVal.str "Anything else?"])]

/-- C4 counterexample: on a first turn the oracle-supplied question list is
kept verbatim (line 181), so the output can have all three fields resolved
(truthy) and a non-empty `clarifying_questions` at the same time — the
claimed output invariant is false on the code. -/
theorem C4_counterexample :
    extract_context ⟨none, 0⟩ c4text.toList = Except.ok c4out ∧
    (∀ k, k ∈ fieldKeys → otruthy (dget c4out k) = true) ∧
    dget c4out "clarifying_questions" = some (JVal.arr [JVal.str "Anything else?"]) ∧
    JVal.arr [JVal.str "Anything else?"] ≠ JVal.arr [] :=
  ⟨rfl, by decide, rfl, by simp⟩

/-- C4 (amended): on a follow-up turn (prior context present, count below the
bound), if all three fields are truthy (resolved) after the merge, the
returned `clarifying_questions` list is empty, even though the bound has not
been reached. On the first-turn path the output-level invariant fails, since
a non-empty oracle-supplied question list is used verbatim even when every
field is resolved. -/
theorem C4_followup_resolved_empty (req : TurnRequest) (t : List Char) (fs c1 : Ctx)
    (hc : req.count < MAX_CLARIFICATIONS)
    (hpt : prevTruthy req.previous = true)
    (hparse : parseResponse t = Except.ok (JVal.obj fs))
    (hnp : noPrefNormalize (nullNormalize fs) = Except.ok c1)
    (hres : ∀ k, k ∈ fieldKeys →
      otruthy (dget (mergeCtx (req.previous.getD []) c1) k) = true) :
    ∃ c, extract_context req t = Except.ok c ∧
      dget c "clarifying_questions" = some (JVal.arr []) := by
  have hcomp : extract_context req t =
      Except.ok (finalizeCtx (followUpQuestions (mergeCtx (req.previous.getD []) c1))) := by
    unfold extract_context
    rw [if_neg (by omega)]
    simp only [hparse, asObj]
    unfold processOracle
    simp only [hnp]
    rw [if_pos hpt]
  refine ⟨_, hcomp, ?_⟩
  rw [dget_finalizeCtx_questions, dget_followUpQuestions_questions,
    synthQuestions_empty _ hres]
  rfl

/-- An oracle response for a follow-up answer resolving cuisine and dish. -/
def c4wtext : String :=
  "\x7b\"diet_type\": null, \"cuisine\": \"italian\", \"dish_attributes\": \"spicy\", \"clarifying_questions\": []\x7d"

/-- The decoded oracle object of `c4wtext` (unchanged by normalization). -/
def c4wctx : Ctx :=
  [("diet_type", JVal.null), ("cuisine", JVal.str "italian"),
    ("dish_attributes", JVal.str "spicy"), ("clarifying_questions", JVal.arr [])]

/-- Witness for the amended C4: turn 2 (count 1), prior diet "vegan", all
fields resolved after merge, no questions in the output. -/
theorem C4_followup_resolved_empty_witness :
    (1 : Nat) < MAX_CLARIFICATIONS ∧
    prevTruthy (some [("diet_type", JVal.str "vegan")]) = true ∧
    parseResponse c4wtext.toList = Except.ok (JVal.obj c4wctx) ∧
    noPrefNormalize (nullNormalize c4wctx) = Except.ok c4wctx ∧
    (∀ k, k ∈ fieldKeys →
      otruthy (dget (mergeCtx
        ((some [("diet_type", JVal.str "vegan")] : Option Ctx).getD []) c4wctx) k) = true) ∧
    (∃ c, extract_context ⟨some [("diet_type", JVal.str "vegan")], 1⟩ c4wtext.toList =
        Except.ok c ∧
      dget c "clarifying_questions" = some (JVal.arr [])) :=
  ⟨by decide, rfl, rfl, rfl, by decide,
    C4_followup_resolved_empty ⟨some [("diet_type", JVal.str "vegan")], 1⟩ c4wtext.toList
      c4wctx c4wctx (by decide) rfl rfl rfl (by decide)⟩

/-! ### Claim C7 -/

/-- A follow-up oracle response with `diet_type` still unknown. -/
def c7text : String :=
  "\x7b\"diet_type\": null, \"cuisine\": \"italian\", \"dish_attributes\": \"spicy\"\x7d"

/-- The response of a follow-up turn (count 0) on `c7text` with a prior
context whose `diet_type` is the literal string "null". -/
def c7out : Ctx :=
  [("diet_type", JVal.str "null"), ("cuisine", JVal.str "italian"),
    ("dish_attributes", JVal.str "spicy"), ("clarifying_questions", JVal.arr [])]

/-- C7 counterexample: the "null"-string normalization (lines 141-144) only
runs on the oracle object, before the merge; a literal "null" in
`previous_context` is merged back in (lines 156-162) and survives to the
successful non-bound output, where it is truthy and so never defaulted. The
claim's "holds for all inputs, including a previous_context whose fields
contain the string 'null'" is false on the code. -/
theorem C7_counterexample :
    (0 : Nat) < MAX_CLARIFICATIONS ∧
    extract_context ⟨some [("diet_type", JVal.str "null")], 0⟩ c7text.toList =
      Except.ok c7out ∧
    dget c7out "diet_type" = some (JVal.str "null") ∧
    isNullStr (dget c7out "diet_type") = true :=
  ⟨by decide, rfl, rfl, rfl⟩

/-- C7 (amended): for every successful non-bound turn output, all three
fields are present, and none of them is the literal string "null" provided no
field of `previous_context` is the literal string "null" — oracle-supplied
"null" strings are always normalized away, but a "null" string in
`previous_context` can be merged back into the output. -/
theorem C7_output_no_null (req : TurnRequest) (t : List Char) (c : Ctx)
    (hc : req.count < MAX_CLARIFICATIONS)
    (hprev : ∀ k, k ∈ fieldKeys → isNullStr (dget (req.previous.getD []) k) = false)
    (h : extract_context req t = Except.ok c) :
    ∀ k, k ∈ fieldKeys → isNullStr (dget c k) = false ∧ dget c k ≠ none := by
  obtain ⟨fs, c1, hparse, hnp, hcfin⟩ := extract_context_ok_inv req t c hc h
  subst hcfin
  intro k hk
  have h0 : isNullStr (dget (nullNormalize fs) k) = false := by
    rw [dget_nullNormalize fs k hk]
    split
    · rfl
    · next hcond => simpa using hcond
  have h1 : isNullStr (dget c1 k) = false := by
    rcases noPrefNormalize_ok_dget _ _ hnp k hk with h' | h'
    · rw [h']; exact h0
    · rw [h']; rfl
  apply finalizeCtx_no_null _ k hk
  by_cases hpt : prevTruthy req.previous = true
  · rw [if_pos hpt, dget_followUpQuestions_field _ k hk, dget_mergeCtx _ _ k hk]
    split
    · exact hprev k hk
    · exact h1
  · rw [if_neg hpt, dget_firstTurnQuestions_field _ k hk]
    exact h1

/-- The response of a follow-up turn (count 0) on `c7text` with a clean prior
context. -/
def c7wout : Ctx :=
  [("diet_type", JVal.str "vegan"), ("cuisine", JVal.str "italian"),
    ("dish_attributes", JVal.str "spicy"), ("clarifying_questions", JVal.arr [])]

/-- Witness for the amended C7 at a concrete follow-up turn with a clean
prior context. -/
theorem C7_output_no_null_witness :
    (0 : Nat) < MAX_CLARIFICATIONS ∧
    (∀ k, k ∈ fieldKeys →
      isNullStr (dget ((some [("diet_type", JVal.str "vegan")] : Option Ctx).getD []) k)
        = false) ∧
    extract_context ⟨some [("diet_type", JVal.str "vegan")], 0⟩ c7text.toList =
      Except.ok c7wout ∧
    (∀ k, k ∈ fieldKeys → isNullStr (dget c7wout k) = false ∧ dget c7wout k ≠ none) :=
  ⟨by decide, by decide, rfl,
    C7_output_no_null ⟨some [("diet_type", JVal.str "vegan")], 0⟩ c7text.toList c7wout
      (by decide) (by decide) rfl⟩

/-! ### Claim C9 -/

/-- An oracle response with every field set — cuisine to the empty string —
and an empty suggested-question list. -/
def c9text : String :=
  "\x7b\"diet_type\": \"vegan\", \"cuisine\": \"\", \"dish_attributes\": \"spicy\", \"clarifying_questions\": []\x7d"

/-- The decoded oracle object of `c9text`. -/
def c9ctx : Ctx :=
  [("diet_type", JVal.str "vegan"), ("cuisine", JVal.str ""),
    ("dish_attributes", JVal.str "spicy"), ("clarifying_questions", JVal.arr [])]

/-- The response of a first turn (count 0) on `c9text`. -/
def c9out : Ctx :=
  [("diet_type", JVal.str "vegan"), ("cuisine", JVal.str "any"),
    ("dish_attributes", JVal.str "spicy"),
    ("clarifying_questions", JVal.arr [JVal.str cuisineQuestion])]

/-- C9 counterexample: question synthesis keys on Python falsiness
(`not context.get(key)`, lines 183-190), not on `Unset`; an oracle object
whose `cuisine` is the set (non-null, hence not `Unset`) empty string still
gets a synthesized cuisine question, so "exactly one canonical question per
still-Unset field" is false on the code (here zero fields are `Unset`, yet
one question is synthesized). -/
theorem C9_counterexample :
    extract_context ⟨none, 0⟩ c9text.toList = Except.ok c9out ∧
    parseResponse c9text.toList = Except.ok (JVal.obj c9ctx) ∧
    (∀ k, k ∈ fieldKeys → isNoneLike (dget c9ctx k) = false) ∧
    dget c9out "clarifying_questions" = some (JVal.arr [JVal.str cuisineQuestion]) ∧
    JVal.arr [JVal.str cuisineQuestion] ≠ JVal.arr [] :=
  ⟨rfl, rfl, by decide, rfl, by simp⟩

/-- C9 (amended): on a first turn (no prior context) below the bound, a
truthy oracle-supplied clarifying-question value is used verbatim; otherwise
exactly one canonical question is synthesized per still-falsy field (`Unset`
or a falsy value such as the empty string), in the order diet_type, cuisine,
dish_attributes, with the canonical wordings. -/
theorem C9_first_turn_questions (req : TurnRequest) (t : List Char) (fs c1 : Ctx)
    (hc : req.count < MAX_CLARIFICATIONS)
    (hpt : prevTruthy req.previous = false)
    (hparse : parseResponse t = Except.ok (JVal.obj fs))
    (hnp : noPrefNormalize (nullNormalize fs) = Except.ok c1) :
    ∃ c, extract_context req t = Except.ok c ∧
      dget c "clarifying_questions" =
        (if otruthy (dget c1 "clarifying_questions") then dget c1 "clarifying_questions"
          else some (JVal.arr (synthQuestions c1))) := by
  have hptne : ¬ (prevTruthy req.previous = true) := by
    rw [hpt]
    exact Bool.false_ne_true
  have hcomp : extract_context req t = Except.ok (finalizeCtx (firstTurnQuestions c1)) := by
    unfold extract_context
    rw [if_neg (by omega)]
    simp only [hparse, asObj]
    unfold processOracle
    simp only [hnp]
    rw [if_neg hptne]
  refine ⟨_, hcomp, ?_⟩
  rw [dget_finalizeCtx_questions]
  unfold firstTurnQuestions
  split
  · next hq =>
    cases hd : dget c1 "clarifying_questions" with
    | none => rw [hd] at hq; exact absurd hq (by simp [otruthy])
    | some v => rfl
  · rw [dget_dset_self]
    rfl

/-- The oracle response of the specification's first-turn synthesis example. -/
def c9wtext : String :=
  "\x7b\"diet_type\": null, \"cuisine\": null, \"dish_attributes\": \"spicy\", \"clarifying_questions\": []\x7d"

/-- The decoded oracle object of `c9wtext` (unchanged by normalization). -/
def c9wctx : Ctx :=
  [("diet_type", JVal.null), ("cuisine", JVal.null),
    ("dish_attributes", JVal.str "spicy"), ("clarifying_questions", JVal.arr [])]

/-- Witness for the amended C9: the specification's example synthesizes
exactly the diet and cuisine canonical questions, in that order. -/
theorem C9_first_turn_questions_witness :
    (0 : Nat) < MAX_CLARIFICATIONS ∧
    prevTruthy (none : Option Ctx) = false ∧
    parseResponse c9wtext.toList = Except.ok (JVal.obj c9wctx) ∧
    noPrefNormalize (nullNormalize c9wctx) = Except.ok c9wctx ∧
    (if otruthy (dget c9wctx "clarifying_questions") then dget c9wctx "clarifying_questions"
      else some (JVal.arr (synthQuestions c9wctx))) =
      some (JVal.arr [JVal.str dietQuestion, JVal.str cuisineQuestion]) ∧
    (∃ c, extract_context ⟨none, 0⟩ c9wtext.toList = Except.ok c ∧
      dget c "clarifying_questions" =
        (if otruthy (dget c9wctx "clarifying_questions") then dget c9wctx "clarifying_questions"
          else some (JVal.arr (synthQuestions c9wctx)))) :=
  ⟨by decide, rfl, rfl, rfl, rfl,
    C9_first_turn_questions ⟨none, 0⟩ c9wtext.toList c9wctx c9wctx (by decide) rfl rfl rfl⟩
